import Mathlib

/-!
# Verification of the email-scrapper discovery pipeline

A shallow embedding of the core services of the `email-scrapper` repository
(`backend/services/emailExtractor.js`, `backend/services/nameInference.js`,
`backend/services/webScraper.js`) together with theorems settling the
specification claims about them.

JavaScript strings are modelled as Lean `String`s / `List Char`;
JavaScript numbers that hold confidence scores are modelled as `ℚ`
(every confidence the code manipulates is an exact multiple of 1/100 after
the `Math.round(c * 100) / 100` normalisation step, so the rational model
agrees with IEEE-754 on all reachable values); `Math.random()`-driven
index choices are modelled by an explicit stream `rng : Nat → Nat` reduced
modulo the array length.
-/

namespace EmailScraper

/-! ## ASCII character helpers (JS `toLowerCase`/`toUpperCase` on ASCII data) -/

/-- JS `String.prototype.toLowerCase` restricted to ASCII, one character. -/
def lowerChar (c : Char) : Char :=
  if 65 ≤ c.toNat ∧ c.toNat ≤ 90 then Char.ofNat (c.toNat + 32) else c

/-- JS `String.prototype.toUpperCase` restricted to ASCII, one character. -/
def upperChar (c : Char) : Char :=
  if 97 ≤ c.toNat ∧ c.toNat ≤ 122 then Char.ofNat (c.toNat - 32) else c

def lowerList (l : List Char) : List Char := l.map lowerChar

/-- JS `s.toLowerCase()` for ASCII strings. -/
def lowerStr (s : String) : String := ⟨lowerList s.data⟩

/-- ASCII letter (`[A-Za-z]`). -/
def isAsciiLetter (c : Char) : Bool :=
  (97 ≤ c.toNat && c.toNat ≤ 122) || (65 ≤ c.toNat && c.toNat ≤ 90)

/-- ASCII digit (`[0-9]`). -/
def isAsciiDigit (c : Char) : Bool := 48 ≤ c.toNat && c.toNat ≤ 57

/-- Regex word character `\w` = `[A-Za-z0-9_]`, used by the `\b` assertion. -/
def isWordChar (c : Char) : Bool := isAsciiLetter c || isAsciiDigit c || c == '_'

def isWordOpt : Option Char → Bool
  | none => false
  | some c => isWordChar c

/-- Number of leading characters of `l` satisfying `p` (greedy run length). -/
def countWhile (p : Char → Bool) : List Char → Nat
  | [] => 0
  | c :: r => if p c then countWhile p r + 1 else 0

/-- JS `str.split(sep)` for a single-character separator: splits at every
occurrence, keeping empty pieces (so `"".split(' ') = [""]`). -/
def splitChar (sep : Char) : List Char → List (List Char)
  | [] => [[]]
  | c :: rest =>
    if c = sep then [] :: splitChar sep rest
    else
      match splitChar sep rest with
      | w :: ws => (c :: w) :: ws
      | [] => [[c]]

/-- JS `String.prototype.trim` (the email regex never matches whitespace,
so on scanner output this is the identity, but we keep the step). -/
def trimChars (l : List Char) : List Char :=
  ((l.dropWhile (fun c => c == ' ' || c == '\t' || c == '\n' || c == '\r')).reverse.dropWhile
      (fun c => c == ' ' || c == '\t' || c == '\n' || c == '\r')).reverse

/-- JS `s.endsWith(t)`. -/
def jsEndsWith (s t : String) : Bool := t.data.isSuffixOf s.data

/-- JS `Math.min` on two numbers. -/
def jsMin (a b : ℚ) : ℚ := if Rat.blt a b then a else b

/-- Rational addition in a kernel-reducible form (`Rat.add` is marked
irreducible, which would block `decide` on concrete runs; this computes the
same rational). -/
def ratAdd (a b : ℚ) : ℚ := mkRat (a.num * b.den + b.num * a.den) (a.den * b.den)

/-- Rational multiplication in a kernel-reducible form (same value as `*`). -/
def ratMul (a b : ℚ) : ℚ := mkRat (a.num * b.num) (a.den * b.den)

/-- JS `Math.round`: round half toward positive infinity, `⌊x + 1/2⌋`. -/
def jsRound (x : ℚ) : ℤ := (ratAdd x (mkRat 1 2)).floor

/-! ## emailExtractor.js — the email token regex

`this.emailPattern = /\b[A-Za-z0-9._%+-]+@[A-Za-z0-9.-]+\.[A-Z|a-z]{2,}\b/g`

The scanner below reproduces the JS global-match semantics for this regex:
try a match at every position from left to right; on success continue after
the match.  The local part is deterministic (a greedy `[A-Za-z0-9._%+-]+`
followed by the literal `@` needs the maximal run, since shortening the run
leaves a class character where `@` is required); the domain side backtracks:
the greedy `[A-Za-z0-9.-]+` shrinks until a literal `.` follows, and the
greedy `[A-Z|a-z]{2,}` shrinks until the trailing `\b` holds. -/

/-- `[A-Za-z0-9._%+-]` — local-part character class of `emailPattern`. -/
def localChar (c : Char) : Bool :=
  isAsciiLetter c || isAsciiDigit c || c == '.' || c == '_' || c == '%' || c == '+' || c == '-'

/-- `[A-Za-z0-9.-]` — domain character class of `emailPattern`. -/
def domainChar (c : Char) : Bool :=
  isAsciiLetter c || isAsciiDigit c || c == '.' || c == '-'

/-- `[A-Z|a-z]` — the (buggy-looking but faithful) TLD class: letters and `|`. -/
def tldChar (c : Char) : Bool := isAsciiLetter c || c == '|'

/-- Backtracking of `[A-Z|a-z]{2,}\b` after the final dot: `rest` is the text
after the `@`, the dot sits at index `k`; try TLD lengths from the greedy
maximum downwards and return the length consumed after the `@`. -/
def tldTry (rest : List Char) (k : Nat) : Nat → Option Nat
  | 0 => none
  | 1 => none
  | t + 2 =>
    if isWordOpt (rest.get? (k + (t + 2))) != isWordOpt (rest.get? (k + 1 + (t + 2)))
    then some (k + 1 + (t + 2))
    else tldTry rest k (t + 1)

/-- Backtracking of `[A-Za-z0-9.-]+\.` : try domain lengths from the greedy
maximum downwards; a candidate length `k` needs a literal `.` at index `k`. -/
def domTry (rest : List Char) : Nat → Option Nat
  | 0 => none
  | k + 1 =>
    match (if rest.get? (k + 1) == some '.' then
             tldTry rest (k + 1) (countWhile tldChar (rest.drop (k + 2)))
           else none) with
    | some n => some n
    | none => domTry rest k

/-- Length of the `emailPattern` match starting at the head of `l`
(the start-of-match `\b` is checked by the scanner). -/
def emailAt (l : List Char) : Option Nat :=
  let loc := countWhile localChar l
  if loc == 0 then none
  else
    match l.get? loc with
    | some '@' =>
      let rest := l.drop (loc + 1)
      match domTry rest (countWhile domainChar rest) with
      | some d => some (loc + 1 + d)
      | none => none
    | _ => none

/-- Global scan of `emailPattern` (`String.prototype.match` with the `g`
flag): `prev` is the character before the current position (for `\b`). -/
def scanGo (prev : Option Char) : List Char → Nat → List (List Char)
  | _, 0 => []
  | [], _ => []
  | c :: rest, fuel + 1 =>
    if isWordOpt prev != isWordChar c then
      match emailAt (c :: rest) with
      | some n =>
        (c :: rest).take n :: scanGo ((c :: rest).get? (n - 1)) ((c :: rest).drop n) fuel
      | none => scanGo (some c) rest fuel
    else scanGo (some c) rest fuel

/-- `cleanHTML.match(this.emailPattern)` (returning `[]` for `null`). -/
def scanEmails (l : List Char) : List (List Char) := scanGo none l (l.length + 1)

/-! ## emailExtractor.js — stripping `<script>`/`<style>` blocks

`html.replace(/<script\b[^<]*(?:(?!<\/script>)<[^<]*)*<\/script>/gi, '')`
(and the same for `style`).  For this regex a match is exactly a region
that starts at `<script` followed by a word boundary and ends at the first
subsequent `</script>`, case-insensitively; if no closing tag follows, there
is no match at that position and scanning resumes one character later. -/

/-- Case-insensitive "starts with" over character lists. -/
def ciStartsWith : List Char → List Char → Bool
  | [], _ => true
  | _ :: _, [] => false
  | p :: ps, c :: cs => lowerChar p == lowerChar c && ciStartsWith ps cs

/-- Index of the first case-insensitive occurrence of `pat` in `l`. -/
def findCI (pat : List Char) : List Char → Option Nat
  | [] => if ciStartsWith pat [] then some 0 else none
  | c :: rest =>
    if ciStartsWith pat (c :: rest) then some 0
    else (findCI pat rest).map (fun n => n + 1)

/-- The `\b` after `<script`: the next character must not be a word character. -/
def tagBoundary : List Char → Bool
  | [] => true
  | d :: _ => !isWordChar d

/-- One `String.prototype.replace(regex, '')` pass deleting every block from
`openTag`+boundary to the nearest following `closeTag` (case-insensitive). -/
def stripBlocks (openTag closeTag : List Char) : Nat → List Char → List Char
  | 0, l => l
  | _ + 1, [] => []
  | fuel + 1, c :: rest =>
    if ciStartsWith openTag (c :: rest) && tagBoundary ((c :: rest).drop openTag.length) then
      match findCI closeTag ((c :: rest).drop openTag.length) with
      | some j =>
        stripBlocks openTag closeTag fuel ((c :: rest).drop (openTag.length + j + closeTag.length))
      | none => c :: stripBlocks openTag closeTag fuel rest
    else c :: stripBlocks openTag closeTag fuel rest

def stripScript (l : List Char) : List Char :=
  stripBlocks "<script".data "</script>".data (l.length + 1) l

def stripStyle (l : List Char) : List Char :=
  stripBlocks "<style".data "</style>".data (l.length + 1) l

/-! ## The `email-validator` npm package (`validator.validate`)

```js
var tester = /^[-!#$%&'*+\/0-9=?A-Z^_a-z{|}~](\.?[-!#$%&'*+\/0-9=?A-Z^_a-z`{|}~])*@[a-zA-Z0-9](-*\.?[a-zA-Z0-9])*\.[a-zA-Z](-?[a-zA-Z0-9])*$/;
```
plus the account/address length checks. -/

/-- First character class of `tester` (no backtick, no dot). -/
def a1Char (c : Char) : Bool :=
  isAsciiDigit c || isAsciiLetter c ||
    "-!#$%&*+/=?^_\x7b|\x7d~".data.contains c || c == Char.ofNat 39

/-- Repeated character class of `tester` (adds the backtick). -/
def a2Char (c : Char) : Bool := a1Char c || c == Char.ofNat 96

def alnumChar (c : Char) : Bool := isAsciiLetter c || isAsciiDigit c

/-- `(\.?[...a2...])*` before the `@`: each iteration needs an `a2` character,
optionally preceded by a dot, so greedy consumption is deterministic. -/
def localLoop : List Char → List Char
  | [] => []
  | c :: rest =>
    if a2Char c then localLoop rest
    else if c = '.' then
      match rest with
      | d :: rest2 => if a2Char d then localLoop rest2 else c :: rest
      | [] => c :: rest
    else c :: rest

/-- All positions reachable by iterating `step` (a Kleene star whose body
consumes at least one character per iteration) from the frontier. -/
def reach (step : Nat → List Nat) : Nat → List Nat → List Nat
  | 0, front => front
  | f + 1, front =>
    let nxt := (front.flatMap step).filter (fun p => !front.contains p)
    if nxt.isEmpty then front else reach step f (front ++ nxt)

/-- One iteration of `(-*\.?[a-zA-Z0-9])` inside the domain of `tester`. -/
def domStep (dom : List Char) (p : Nat) : List Nat :=
  let h := countWhile (fun c => c == '-') (dom.drop p)
  (List.range (h + 1)).flatMap (fun m =>
    let q := p + m
    (match dom.get? q with
     | some c =>
       (if c == '.' then
          match dom.get? (q + 1) with
          | some d => if alnumChar d then [q + 2] else []
          | none => []
        else []) ++ (if alnumChar c then [q + 1] else [])
     | none => []))

/-- One iteration of `(-?[a-zA-Z0-9])` after the final dot of `tester`. -/
def tailStep (dom : List Char) (p : Nat) : List Nat :=
  match dom.get? p with
  | some c =>
    (if alnumChar c then [p + 1] else []) ++
      (if c == '-' then
         match dom.get? (p + 1) with
         | some d => if alnumChar d then [p + 2] else []
         | none => []
       else [])
  | none => []

/-- `tester.test(email)`. -/
def testerMatches (l : List Char) : Bool :=
  match l with
  | [] => false
  | c :: rest =>
    if !a1Char c then false
    else
      match localLoop rest with
      | '@' :: dom =>
        match dom with
        | d :: _ =>
          if !alnumChar d then false
          else
            let n := dom.length
            ((reach (domStep dom) (n + 2) [1]).any (fun p =>
              (dom.get? p == some '.') &&
                (match dom.get? (p + 1) with
                 | some e => isAsciiLetter e
                 | none => false) &&
                ((reach (tailStep dom) (n + 2) [p + 2]).contains n)))
        | [] => false
      | _ => false

/-- `validator.validate(email)` from the `email-validator` package. -/
def validateEmail (s : String) : Bool :=
  if s = "" then false
  else
    match splitChar '@' s.data with
    | [account, address] =>
      if account.length > 64 then false
      else if address.length > 255 then false
      else if (splitChar '.' address).any (fun part => part.length > 63) then false
      else testerMatches s.data
    | _ => false

/-! ## emailExtractor.js — exclusion patterns and `isValidEmail` -/

/-- The nine `excludePatterns` (`/example\.com$/i`, …, `/\.svg$/i`): each is an
unanchored-start, end-anchored, case-insensitive literal, i.e. a suffix test. -/
def excludeSuffixes : List String :=
  ["example.com", "test.com", "placeholder.com", "sample.com", "domain.com",
   ".png", ".jpg", ".gif", ".svg"]

def matchesExclusion (email : String) : Bool :=
  excludeSuffixes.any (fun pat => jsEndsWith (lowerStr email) pat)

/-- `emailExtractor.isValidEmail(email)`. -/
def isValidEmail (email : String) : Bool :=
  if !validateEmail email then false
  else if matchesExclusion email then false
  else true

/-! ## emailExtractor.js — `extractFromHTML` -/

/-- `Set.prototype.add` followed by `Array.from` keeps first-seen order. -/
def addUnique (emails : List String) (e : String) : List String :=
  if emails.contains e then emails else emails ++ [e]

/-- The body of the `matches.forEach` loop in `extractFromHTML`. -/
def extractStep (targetEmailProvider : Option String) (emails : List String)
    (m : List Char) : List String :=
  let normalizedEmail : String := ⟨lowerList (trimChars m)⟩
  if isValidEmail normalizedEmail then
    match targetEmailProvider with
    | some p =>
      if jsEndsWith normalizedEmail (lowerStr p) then addUnique emails normalizedEmail
      else emails
    | none => addUnique emails normalizedEmail
  else emails

/-- `emailExtractor.extractFromHTML(html, targetEmailProvider)`. -/
def extractFromHTML (html : String) (targetEmailProvider : Option String) : List String :=
  let cleanHTML := stripStyle (stripScript html.data)
  (scanEmails cleanHTML).foldl (extractStep targetEmailProvider) []

/-! ## nameInference.js — the ordered pattern list

```js
this.patterns = [
  { regex: /^([a-z]+)\.([a-z]+)@/,        handler: formatFullName,        confidence: 0.9  },
  { regex: /^([a-z]+)_([a-z]+)@/,         handler: formatFullName,        confidence: 0.85 },
  { regex: /^([a-z]{2,15})([a-z]{2,15})@/, handler: formatFullName,       confidence: 0.5  },
  { regex: /^([a-z])\.([a-z]+)@/,         handler: formatInitialLastName, confidence: 0.7  },
  { regex: /^([a-z]+)@/,                  handler: formatSingleName,      confidence: 0.6  },
];
```
Each anchored pattern is matched against the lowercased email.  The greedy
`[a-z]+` groups are deterministic here because each is followed by a
character outside `[a-z]` (`.`, `_` or `@`); the `{2,15}{2,15}` pair
backtracks: group 1 takes the largest length `a ≤ 15` such that the rest of
the lowercase run (of length `n`) leaves `n - a ∈ [2,15]`, i.e.
`a = min 15 (n-2)` whenever `4 ≤ n ≤ 30`. -/

def lowerAZ (c : Char) : Bool := 97 ≤ c.toNat && c.toNat ≤ 122

/-- `/^([a-z]+)\.([a-z]+)@/` applied at the start of `l`, returning the groups. -/
def p1Match (l : List Char) : Option (List Char × List Char) :=
  let a := l.takeWhile lowerAZ
  if a.isEmpty then none
  else
    match l.drop a.length with
    | '.' :: r2 =>
      let b := r2.takeWhile lowerAZ
      if b.isEmpty then none
      else
        match r2.drop b.length with
        | '@' :: _ => some (a, b)
        | _ => none
    | _ => none

/-- `/^([a-z]+)_([a-z]+)@/`. -/
def p2Match (l : List Char) : Option (List Char × List Char) :=
  let a := l.takeWhile lowerAZ
  if a.isEmpty then none
  else
    match l.drop a.length with
    | '_' :: r2 =>
      let b := r2.takeWhile lowerAZ
      if b.isEmpty then none
      else
        match r2.drop b.length with
        | '@' :: _ => some (a, b)
        | _ => none
    | _ => none

/-- `/^([a-z]{2,15})([a-z]{2,15})@/` with JS greedy backtracking. -/
def p3Match (l : List Char) : Option (List Char × List Char) :=
  let r := l.takeWhile lowerAZ
  let n := r.length
  if 4 ≤ n && n ≤ 30 then
    match l.drop n with
    | '@' :: _ =>
      let a := min 15 (n - 2)
      some (r.take a, r.drop a)
    | _ => none
  else none

/-- `/^([a-z])\.([a-z]+)@/`. -/
def p4Match (l : List Char) : Option (List Char × List Char) :=
  match l with
  | c :: '.' :: r =>
    if lowerAZ c then
      let b := r.takeWhile lowerAZ
      if b.isEmpty then none
      else
        match r.drop b.length with
        | '@' :: _ => some ([c], b)
        | _ => none
    else none
  | _ => none

/-- `/^([a-z]+)@/`. -/
def p5Match (l : List Char) : Option (List Char) :=
  let a := l.takeWhile lowerAZ
  if a.isEmpty then none
  else
    match l.drop a.length with
    | '@' :: _ => some a
    | _ => none

/-! ## nameInference.js — formatters, plausibility check, confidence -/

/-- `word.charAt(0).toUpperCase() + word.slice(1).toLowerCase()`. -/
def capWord (w : List Char) : List Char :=
  match w with
  | [] => []
  | c :: rest => upperChar c :: rest.map lowerChar

/-- `capitalize(str)`: `str.split(' ').map(capWord).join(' ')`. -/
def capitalize (s : List Char) : List Char :=
  List.intercalate [' '] ((splitChar ' ' s).map capWord)

/-- `formatFullName`: capitalized first and last joined by a space. -/
def formatFullName (a b : List Char) : String :=
  ⟨capitalize a ++ [' '] ++ capitalize b⟩

/-- `formatInitialLastName`: `match[1].toUpperCase() + ". " + capitalize(match[2])`. -/
def formatInitialLastName (a b : List Char) : String :=
  ⟨a.map upperChar ++ ['.', ' '] ++ capitalize b⟩

/-- `formatSingleName`: `capitalize(match[1])`. -/
def formatSingleName (a : List Char) : String := ⟨capitalize a⟩

/-- `this.commonFirstNames` (a JS `Set` of thirty lowercase names). -/
def commonFirstNames : List String :=
  ["john", "jane", "michael", "sarah", "david", "emily", "james", "mary",
   "robert", "jennifer", "william", "linda", "richard", "patricia", "thomas",
   "jessica", "charles", "nancy", "daniel", "lisa", "matthew", "karen",
   "mark", "susan", "donald", "betty", "paul", "helen", "steven", "sandra"]

def letterCount (l : List Char) : Nat := (l.filter isAsciiLetter).length

/-- `isLikelyRealName(name)`.  The JS ratio test `letterCount / name.length > 0.8`
is exact for the rational cross-multiplied form `5 * letterCount > 4 * length`
(for the lengths 3..30 that reach the test, the IEEE-754 quotient is on the
same side of 0.8 as the exact rational). -/
def isLikelyRealName (name : String) : Bool :=
  let parts := splitChar ' ' (lowerList name.data)
  if (match parts with
      | p0 :: _ => commonFirstNames.contains (String.mk p0)
      | [] => false) then true
  else if name.data.length < 3 || name.data.length > 30 then false
  else 4 * name.data.length < 5 * letterCount name.data

/-- The confidence adjustment in `inferName`: the optional real-name bonus
`Math.min(confidence + 0.1, 1.0)` followed by `Math.round(confidence*100)/100`
(`jsRound` is `⌊x + 1/2⌋`, which agrees with JS `Math.round`). -/
def adjustConf (base : ℚ) (name : String) : ℚ :=
  let c := if isLikelyRealName name then jsMin (ratAdd base (mkRat 1 10)) 1 else base
  mkRat (jsRound (ratMul c 100)) 100

/-- The record returned by `inferName` / used by `searchAndExtract`. -/
structure Inference where
  name : String
  confidence : ℚ
  method : String
deriving DecidableEq

/-- `nameInference.inferName(email)`: first matching pattern wins, else the
fallback that title-cases the raw local part with separators as spaces. -/
def inferName (email : String) : Inference :=
  let l := lowerList email.data
  match p1Match l with
  | some (a, b) =>
    let name := formatFullName a b
    { name := name, confidence := adjustConf (mkRat 9 10) name, method := "pattern-matching" }
  | none =>
  match p2Match l with
  | some (a, b) =>
    let name := formatFullName a b
    { name := name, confidence := adjustConf (mkRat 17 20) name, method := "pattern-matching" }
  | none =>
  match p3Match l with
  | some (a, b) =>
    let name := formatFullName a b
    { name := name, confidence := adjustConf (mkRat 1 2) name, method := "pattern-matching" }
  | none =>
  match p4Match l with
  | some (a, b) =>
    let name := formatInitialLastName a b
    { name := name, confidence := adjustConf (mkRat 7 10) name, method := "pattern-matching" }
  | none =>
  match p5Match l with
  | some a =>
    let name := formatSingleName a
    { name := name, confidence := adjustConf (mkRat 3 5) name, method := "pattern-matching" }
  | none =>
    let pre := email.data.takeWhile (fun c => c ≠ '@')
    { name := ⟨capitalize (pre.map (fun c => if c = '.' || c = '_' || c = '-' then ' ' else c))⟩,
      confidence := mkRat 3 10, method := "fallback" }

/-! ## nameInference.js — `inferNameWithAI`

The Gemini collaborator is external (network + API key); it is modelled as an
oracle: `enabled` is `geminiAI.isEnabled()` and `infer` is
`geminiAI.inferNameFromEmail`, with `none` covering an error, a malformed
response or a timeout (all of which the JS code degrades on). -/

structure AIAnswer where
  name : String
  confidence : ℚ
  reasoning : String

structure AIOracle where
  enabled : Bool
  infer : String → Option AIAnswer

/-- `inferName`'s result extended with the `aiEnhanced` flag that
`inferNameWithAI` adds (`false` when the pattern result is kept). -/
structure InferenceX where
  name : String
  confidence : ℚ
  method : String
  aiEnhanced : Bool

/-- `nameInference.inferNameWithAI(email)`. -/
def inferNameWithAI (oracle : AIOracle) (email : String) : InferenceX :=
  let p := inferName email
  if oracle.enabled ∧ p.confidence < mkRat 4 5 then
    match oracle.infer email with
    | some ai =>
      if p.confidence < ai.confidence then
        { name := ai.name, confidence := mkRat (jsRound (ratMul ai.confidence 100)) 100,
          method := "ai-enhanced", aiEnhanced := true }
      else { name := p.name, confidence := p.confidence, method := p.method, aiEnhanced := false }
    | none => { name := p.name, confidence := p.confidence, method := p.method, aiEnhanced := false }
  else { name := p.name, confidence := p.confidence, method := p.method, aiEnhanced := false }

/-- An oracle with the AI collaborator absent (no `GEMINI_API_KEY`). -/
def noAI : AIOracle := ⟨false, fun _ => none⟩

/-! ## webScraper.js — `buildGoogleDorkQueries` -/

structure DorkQuery where
  query : String
  site : String
  emailProvider : String
  profile : String
deriving DecidableEq

def dorkSites : List String := ["linkedin.com", "indeed.com", "github.com"]

def dorkEmailProviders : List String :=
  ["@gmail.com", "@rediffmail.com", "@yahoo.com", "@outlook.com", "@hotmail.com"]

/-- `webScraper.buildGoogleDorkQueries(profile)`: nested `forEach` pushes, so
one query per (site, provider) pair in site-major order. -/
def buildGoogleDorkQueries (profile : String) : List DorkQuery :=
  dorkSites.flatMap (fun site =>
    dorkEmailProviders.map (fun emailProvider =>
      { query := "site:" ++ site ++ " \"" ++ emailProvider ++ "\" \"" ++ profile ++ "\"",
        site := site, emailProvider := emailProvider, profile := profile }))

/-! ## webScraper.js — `executeGoogleDork` page lifecycle

Every awaited browser operation inside the `try` block can reject; the
environment records which one (if any) does, and what `page.evaluate`
returns on success.  The run result counts the pages opened (`newPage`
succeeding) and closed (`page.close()` reached and succeeding); the `catch`
block only logs and returns `[]`, it closes nothing. -/

inductive StepOutcome
  | ok
  | err
deriving DecidableEq

structure DorkEnv where
  initBrowser : StepOutcome
  newPage : StepOutcome
  setUserAgent : StepOutcome
  setViewport : StepOutcome
  setExtraHTTPHeaders : StepOutcome
  goto : StepOutcome
  waitForTimeout : StepOutcome
  evaluate : StepOutcome
  closePage : StepOutcome
  urls : List String
deriving DecidableEq

structure DorkRun where
  result : List String
  pagesOpened : Nat
  pagesClosed : Nat
deriving DecidableEq

/-- `webScraper.executeGoogleDork(dorkQuery, maxResults)`: the awaited steps
in source order; the first rejecting step jumps to the `catch`, which
returns `[]` without closing the page. -/
def executeGoogleDork (env : DorkEnv) (maxResults : Nat) : DorkRun :=
  if env.initBrowser = .err then ⟨[], 0, 0⟩
  else if env.newPage = .err then ⟨[], 0, 0⟩
  else if env.setUserAgent = .err then ⟨[], 1, 0⟩
  else if env.setViewport = .err then ⟨[], 1, 0⟩
  else if env.setExtraHTTPHeaders = .err then ⟨[], 1, 0⟩
  else if env.goto = .err then ⟨[], 1, 0⟩
  else if env.waitForTimeout = .err then ⟨[], 1, 0⟩
  else if env.evaluate = .err then ⟨[], 1, 0⟩
  else if env.closePage = .err then ⟨[], 1, 0⟩
  else ⟨env.urls.take maxResults, 1, 1⟩

/-- A run in which every browser operation succeeds. -/
def dorkEnvAllOk : DorkEnv :=
  ⟨.ok, .ok, .ok, .ok, .ok, .ok, .ok, .ok, .ok, ["https://github.com/someone"]⟩

/-- A run in which `page.goto` rejects (e.g. the 20 s navigation timeout). -/
def dorkEnvGotoErr : DorkEnv :=
  ⟨.ok, .ok, .ok, .ok, .ok, .err, .ok, .ok, .ok, []⟩

/-! ## webScraper.js — `searchAndExtract`

The method ignores every discovery component (it calls none of
`searchWithGoogleDorks`, `searchGoogle`, `extractEmailsFromURL`) and loops
`Math.min(limit, 20)` times over hard-coded name/provider/platform lists,
fabricating one profile per iteration.  `Math.floor(Math.random()*len)` is
modelled by `rng k % len` with a fresh stream index `k` per call. -/

structure SearchOptions where
  limit : Nat
  searchEngine : String
  useAI : Bool

structure SearchResult where
  profile : String
  name : String
  email : String
  platform : String
  searchEngine : String
  confidence : ℚ
  aiEnhanced : Bool
  method : String
  sourceUrl : String
deriving DecidableEq

def sFirstNames : List String :=
  ["Priya", "Rahul", "Ankit", "Sneha", "Vikram", "Anjali", "Arjun", "Neha", "Rohan", "Pooja",
   "Amit", "Kavya", "Sanjay", "Divya", "Karan", "Shreya", "Aditya", "Meera", "Rajesh", "Swati"]

def sLastNames : List String :=
  ["Sharma", "Kumar", "Patel", "Singh", "Reddy", "Verma", "Gupta", "Joshi", "Iyer", "Mehta",
   "Agarwal", "Nair", "Chopra", "Desai", "Malhotra", "Kulkarni", "Bhat", "Rao", "Shah", "Pillai"]

def sEmailProviders : List String :=
  ["gmail.com", "rediffmail.com", "yahoo.com", "outlook.com", "hotmail.com"]

def sPlatforms : List String := ["LinkedIn", "Indeed", "GitHub"]

/-- The `platformUrls` object lookup (platform is always one of the three). -/
def platformUrl (firstName lastName platform : String) : String :=
  if platform = "LinkedIn" then
    "https://www.linkedin.com/in/" ++ lowerStr firstName ++ "-" ++ lowerStr lastName
  else if platform = "Indeed" then
    "https://profile.indeed.com/" ++ lowerStr firstName ++ lowerStr lastName
  else "https://github.com/" ++ lowerStr firstName ++ lowerStr lastName

/-- One iteration of the `for` loop in `searchAndExtract`: state is
`(allResults, processedEmails)`. -/
def searchStep (profile : String) (options : SearchOptions) (rng : Nat → Nat)
    (oracle : AIOracle) (st : List SearchResult × List String) (i : Nat) :
    List SearchResult × List String :=
  let firstName := sFirstNames.getD (rng (2 * i) % sFirstNames.length) ""
  let lastName := sLastNames.getD (rng (2 * i + 1) % sLastNames.length) ""
  let emailProvider := sEmailProviders.getD (i % sEmailProviders.length) ""
  let platform := sPlatforms.getD (i % sPlatforms.length) ""
  let email := lowerStr firstName ++ "." ++ lowerStr lastName ++ "@" ++ emailProvider
  if st.2.contains email then st
  else
    let nameResult :=
      if options.useAI then inferNameWithAI oracle email
      else
        let p := inferName email
        { name := p.name, confidence := p.confidence, method := p.method, aiEnhanced := false }
    (st.1 ++ [{ profile := lowerStr profile, name := nameResult.name, email := email,
                platform := platform, searchEngine := options.searchEngine,
                confidence := nameResult.confidence, aiEnhanced := nameResult.aiEnhanced,
                method := nameResult.method,
                sourceUrl := platformUrl firstName lastName platform }],
     st.2 ++ [email])

/-- `webScraper.searchAndExtract(profile, options)`. -/
def searchAndExtract (profile : String) (options : SearchOptions) (rng : Nat → Nat)
    (oracle : AIOracle) : List SearchResult :=
  ((List.range (min options.limit 20)).foldl (searchStep profile options rng oracle) ([], [])).1

/-! ## Helper lemmas -/

theorem data_append (s t : String) : (s ++ t).data = s.data ++ t.data := rfl

/-- The combined acceptance test of a candidate in `extractFromHTML`. -/
def acceptEmail (prov : Option String) (e : String) : Bool :=
  isValidEmail e &&
    (match prov with
     | some p => jsEndsWith e (lowerStr p)
     | none => true)

theorem mem_addUnique {acc : List String} {x e : String} :
    e ∈ addUnique acc x ↔ e ∈ acc ∨ e = x := by
  unfold addUnique
  split
  · rename_i hx
    constructor
    · exact Or.inl
    · rintro (h | rfl)
      · exact h
      · simpa using hx
  · simp

theorem extractStep_eq (prov : Option String) (acc : List String) (m : List Char) :
    extractStep prov acc m =
      if acceptEmail prov ⟨lowerList (trimChars m)⟩ then
        addUnique acc ⟨lowerList (trimChars m)⟩
      else acc := by
  unfold extractStep acceptEmail
  cases prov with
  | none => cases h : isValidEmail ⟨lowerList (trimChars m)⟩ <;> simp [h]
  | some p =>
    cases h : isValidEmail ⟨lowerList (trimChars m)⟩ <;>
      cases h2 : jsEndsWith ⟨lowerList (trimChars m)⟩ (lowerStr p) <;> simp [h, h2]

theorem mem_foldl_extractStep (prov : Option String) (ms : List (List Char)) :
    ∀ (acc : List String) (e : String),
      e ∈ ms.foldl (extractStep prov) acc ↔
        e ∈ acc ∨ ∃ m ∈ ms, e = ⟨lowerList (trimChars m)⟩ ∧ acceptEmail prov e = true := by
  induction ms with
  | nil => simp
  | cons m ms ih =>
    intro acc e
    rw [List.foldl_cons, ih, extractStep_eq]
    constructor
    · rintro (hacc | hrest)
      · split at hacc
        · rcases mem_addUnique.mp hacc with h | rfl
          · exact Or.inl h
          · rename_i hok
            exact Or.inr ⟨m, by simp, rfl, hok⟩
        · exact Or.inl hacc
      · obtain ⟨m', hm', he, hok⟩ := hrest
        exact Or.inr ⟨m', by simp [hm'], he, hok⟩
    · rintro (hacc | ⟨m', hm', he, hok⟩)
      · left
        split
        · exact mem_addUnique.mpr (Or.inl hacc)
        · exact hacc
      · rcases List.mem_cons.mp hm' with rfl | hm'
        · left
          subst he
          rw [if_pos hok]
          exact mem_addUnique.mpr (Or.inr rfl)
        · exact Or.inr ⟨m', hm', he, hok⟩

theorem isValidEmail_true_iff (e : String) :
    isValidEmail e = true ↔ validateEmail e = true ∧ matchesExclusion e = false := by
  unfold isValidEmail
  cases h1 : validateEmail e <;> cases h2 : matchesExclusion e <;> simp [h1, h2]

theorem mem_extractFromHTML {html : String} {prov : Option String} {e : String}
    (h : e ∈ extractFromHTML html prov) :
    ∃ m ∈ scanEmails (stripStyle (stripScript html.data)),
      e = ⟨lowerList (trimChars m)⟩ ∧ acceptEmail prov e = true := by
  unfold extractFromHTML at h
  rcases (mem_foldl_extractStep prov _ [] e).mp h with h' | h'
  · simp at h'
  · exact h'

theorem getD_mem {α : Type} (l : List α) (n : Nat) (d : α) (h : n < l.length) :
    l.getD n d ∈ l := by
  induction l generalizing n with
  | nil => simp at h
  | cons a l ih =>
    cases n with
    | zero => simp
    | succ n =>
      rw [List.getD_cons_succ]
      exact List.mem_cons_of_mem a (ih n (by simpa using h))

/-! ## Claim theorems -/

/-- **C5.** For every HTML input and every optional provider filter, every
string returned by `extractFromHTML` passes the `email-validator` syntax
check and matches none of the nine exclusion patterns (placeholder domains
and image-extension suffixes): every accepted candidate went through
`isValidEmail`, which is exactly that conjunction. -/
theorem extractFromHTML_all_valid (html : String) (prov : Option String) :
    ∀ e ∈ extractFromHTML html prov,
      validateEmail e = true ∧ matchesExclusion e = false := by
  intro e he
  obtain ⟨m, _, _, hok⟩ := mem_extractFromHTML he
  unfold acceptEmail at hok
  rw [Bool.and_eq_true] at hok
  exact (isValidEmail_true_iff e).mp hok.1

/-- Witness for C5: `extractFromHTML "<p>real@firm.io</p>" none` contains
`"real@firm.io"`, and the theorem instantiated there shows it is validated
and not excluded. -/
theorem extractFromHTML_all_valid_witness :
    validateEmail "real@firm.io" = true ∧ matchesExclusion "real@firm.io" = false :=
  extractFromHTML_all_valid "<p>real@firm.io</p>" none "real@firm.io" (by decide)

/-- **C6.** On `"<script>fake@leak.com</script><p>real@firm.io</p>"` the
extractor returns exactly `["real@firm.io"]`: the script block (and its
embedded address) is removed before the email regex runs. -/
theorem extractFromHTML_strips_script :
    extractFromHTML "<script>fake@leak.com</script><p>real@firm.io</p>" none =
      ["real@firm.io"] := by decide

/-- **C7.** For every HTML input and provider string `p`, every member of
`extractFromHTML html (some p)` is also a member of
`extractFromHTML html none`, and ends (case-insensitively, both sides being
lowercased) with `p`. -/
theorem extractFromHTML_provider_subset (html : String) (p : String) :
    ∀ e ∈ extractFromHTML html (some p),
      e ∈ extractFromHTML html none ∧ jsEndsWith e (lowerStr p) = true := by
  intro e he
  obtain ⟨m, hm, heq, hok⟩ := mem_extractFromHTML he
  unfold acceptEmail at hok
  rw [Bool.and_eq_true] at hok
  refine ⟨?_, hok.2⟩
  unfold extractFromHTML
  refine (mem_foldl_extractStep none _ [] e).mpr (Or.inr ⟨m, hm, heq, ?_⟩)
  unfold acceptEmail
  simp [hok.1]

/-- Witness for C7 at a concrete page and the filter `"@firm.io"`. -/
theorem extractFromHTML_provider_subset_witness :
    "real@firm.io" ∈ extractFromHTML "<p>real@firm.io</p><p>x@other.org</p>" none ∧
      jsEndsWith "real@firm.io" (lowerStr "@firm.io") = true :=
  extractFromHTML_provider_subset "<p>real@firm.io</p><p>x@other.org</p>" "@firm.io"
    "real@firm.io" (by decide)

/-- **C3** (evaluating the code at the failing input): for the f.lastname
shaped local part `"j.doe"`, `inferName` does **not** return
`"J. Lastname"` at confidence 0.70; the `firstname.lastname` pattern
(`/^([a-z]+)\.([a-z]+)@/`, whose `[a-z]+` also matches a single letter)
fires first, so the dedicated `f.lastname` rule at index 3 is unreachable
and the result is `"J Doe"` at its 0.90 base confidence. -/
theorem inferName_single_initial_shadowed :
    inferName "j.doe@x.com" =
      { name := "J Doe", confidence := mkRat 9 10, method := "pattern-matching" } := by decide

/-- **C4** (counterexample): on `"jdoe@business.com"` the inferred name is
not `"Jdoe"`. -/
theorem inferName_jdoe_name_ne : (inferName "jdoe@business.com").name ≠ "Jdoe" := by decide

/-- **C4** (amended): `"jdoe@business.com"` is captured by the
`firstnamelastname` pattern `/^([a-z]{2,15})([a-z]{2,15})@/` (any single
word of ≥ 4 letters matches it, split greedily as `"jd" + "oe"`), so the
result is name `"Jd Oe"`, confidence 0.50, method `"pattern-matching"`;
the bare-word rule is only reachable for local parts of 1–3 letters. -/
theorem inferName_jdoe_eq :
    inferName "jdoe@business.com" =
      { name := "Jd Oe", confidence := mkRat 1 2, method := "pattern-matching" } := by decide

/-- **C2** (evaluating the code at the failing input): in
`executeGoogleDork`, when every awaited browser operation succeeds the one
opened page is closed, but when `page.goto` rejects (navigation failure or
the 20-second timeout) the `catch` path returns `[]` with the page still
open — there is no `finally`, so the page leaks. -/
theorem executeGoogleDork_page_leak :
    executeGoogleDork dorkEnvAllOk 5 =
        { result := ["https://github.com/someone"], pagesOpened := 1, pagesClosed := 1 } ∧
      executeGoogleDork dorkEnvGotoErr 5 =
        { result := [], pagesOpened := 1, pagesClosed := 0 } := by decide

/-- **C1** (counterexample): a concrete `searchAndExtract` run with the
default engine option. The returned result is fabricated (the name
`"Priya Sharma"` comes from the hard-coded lists; no live discovery is
invoked anywhere in the function), yet its `searchEngine` field is exactly
the caller-supplied `"Google"` — the tag a live Google result would carry —
so fabricated results carry no designated synthetic marker, and they are
produced without live discovery having yielded (or even been asked for)
anything. -/
theorem searchAndExtract_fabricated_google_tag :
    searchAndExtract "designer" ⟨1, "Google", false⟩ (fun _ => 0) noAI =
      [{ profile := "designer", name := "Priya Sharma", email := "priya.sharma@gmail.com",
         platform := "LinkedIn", searchEngine := "Google", confidence := 1, aiEnhanced := false,
         method := "pattern-matching",
         sourceUrl := "https://www.linkedin.com/in/priya-sharma" }] := by decide

/-- A result is fabricated with the caller's engine tag: its `searchEngine`
field is the caller-supplied option, and its email address is assembled
from the hard-coded first-name/last-name/provider lists. -/
def fabricatedResult (opts : SearchOptions) (r : SearchResult) : Prop :=
  r.searchEngine = opts.searchEngine ∧
    ∃ fn ∈ sFirstNames, ∃ ln ∈ sLastNames, ∃ pv ∈ sEmailProviders,
      r.email = lowerStr fn ++ "." ++ lowerStr ln ++ "@" ++ pv

theorem searchStep_preserves (profile : String) (opts : SearchOptions) (rng : Nat → Nat)
    (oracle : AIOracle) (idxs : List Nat) :
    ∀ st : List SearchResult × List String,
      (∀ r ∈ st.1, fabricatedResult opts r) →
      ∀ r ∈ (idxs.foldl (searchStep profile opts rng oracle) st).1, fabricatedResult opts r := by
  induction idxs with
  | nil => intro st h; simpa using h
  | cons i idxs ih =>
    intro st h
    rw [List.foldl_cons]
    apply ih
    intro r hr
    unfold searchStep at hr
    split at hr <;> dsimp only at hr <;> split at hr <;>
      first
        | exact h r hr
        | (rcases List.mem_append.mp hr with h' | h'
           · exact h r h'
           · rcases List.mem_singleton.mp h' with rfl
             exact ⟨rfl, _, getD_mem _ _ _ (Nat.mod_lt _ (by decide)),
                    _, getD_mem _ _ _ (Nat.mod_lt _ (by decide)),
                    _, getD_mem _ _ _ (Nat.mod_lt _ (by decide)), rfl⟩)

/-- **C1** (amended): `searchAndExtract` never performs live discovery — it
unconditionally fabricates its result set from the fixed name/provider
lists, and every returned `Result` carries `searchEngine` equal to the
caller-supplied engine name (default `"Google"`); no designated tag
distinguishes these synthetic results from live ones. -/
theorem searchAndExtract_synthetic_spec (profile : String) (opts : SearchOptions)
    (rng : Nat → Nat) (oracle : AIOracle) :
    ∀ r ∈ searchAndExtract profile opts rng oracle, fabricatedResult opts r := by
  intro r hr
  unfold searchAndExtract at hr
  exact searchStep_preserves profile opts rng oracle _ ([], []) (by simp) r hr

/-- Witness for the amended C1 at the concrete run of the counterexample. -/
theorem searchAndExtract_synthetic_spec_witness :
    fabricatedResult ⟨1, "Google", false⟩
      { profile := "designer", name := "Priya Sharma", email := "priya.sharma@gmail.com",
        platform := "LinkedIn", searchEngine := "Google", confidence := 1, aiEnhanced := false,
        method := "pattern-matching",
        sourceUrl := "https://www.linkedin.com/in/priya-sharma" } :=
  searchAndExtract_synthetic_spec "designer" ⟨1, "Google", false⟩ (fun _ => 0) noAI _ (by decide)

theorem searchStep_length (profile : String) (opts : SearchOptions) (rng : Nat → Nat)
    (oracle : AIOracle) (st : List SearchResult × List String) (i : Nat) :
    ((searchStep profile opts rng oracle st i).1).length ≤ st.1.length + 1 := by
  unfold searchStep
  dsimp only
  split
  · omega
  · simp

theorem foldl_searchStep_length (profile : String) (opts : SearchOptions) (rng : Nat → Nat)
    (oracle : AIOracle) (idxs : List Nat) :
    ∀ st : List SearchResult × List String,
      ((idxs.foldl (searchStep profile opts rng oracle) st).1).length ≤
        st.1.length + idxs.length := by
  induction idxs with
  | nil => intro st; simp
  | cons i idxs ih =>
    intro st
    rw [List.foldl_cons]
    calc ((idxs.foldl (searchStep profile opts rng oracle)
            (searchStep profile opts rng oracle st i)).1).length
        ≤ ((searchStep profile opts rng oracle st i).1).length + idxs.length := ih _
      _ ≤ (st.1.length + 1) + idxs.length :=
          Nat.add_le_add_right (searchStep_length profile opts rng oracle st i) _
      _ = st.1.length + (i :: idxs).length := by simp; omega

/-- **C10.** For every profile, options, random stream and AI oracle, the
result list of `searchAndExtract` has at most `min limit 20` entries: the
loop runs `Math.min(limit, 20)` times and pushes at most one result per
iteration. -/
theorem searchAndExtract_length_le (profile : String) (opts : SearchOptions)
    (rng : Nat → Nat) (oracle : AIOracle) :
    (searchAndExtract profile opts rng oracle).length ≤ min opts.limit 20 := by
  unfold searchAndExtract
  calc ((List.range (min opts.limit 20)).foldl
          (searchStep profile opts rng oracle) ([], [])).1.length
      ≤ ([] : List SearchResult).length + (List.range (min opts.limit 20)).length :=
        foldl_searchStep_length profile opts rng oracle _ _
    _ = min opts.limit 20 := by simp

theorem queryText_sub (s e p : String) :
    p.data <:+: ("site:" ++ s ++ " \"" ++ e ++ "\" \"" ++ p ++ "\"").data ∧
      e.data <:+: ("site:" ++ s ++ " \"" ++ e ++ "\" \"" ++ p ++ "\"").data := by
  constructor
  · refine ⟨("site:" ++ s ++ " \"" ++ e ++ "\" \"").data, "\"".data, ?_⟩
    simp only [data_append, List.append_assoc]
  · refine ⟨("site:" ++ s ++ " \"").data, ("\" \"" ++ p ++ "\"").data, ?_⟩
    simp only [data_append, List.append_assoc]

/-- **C8.** `buildGoogleDorkQueries` deterministically produces exactly
`sites.length × providers.length = 15` queries, one per (site, provider)
pair in site-major order, and each query text contains the profile and the
provider as literal substrings. -/
theorem buildGoogleDorkQueries_spec (profile : String) :
    (buildGoogleDorkQueries profile).length = 15 ∧
      (buildGoogleDorkQueries profile).map (fun q => (q.site, q.emailProvider)) =
        [("linkedin.com", "@gmail.com"), ("linkedin.com", "@rediffmail.com"),
         ("linkedin.com", "@yahoo.com"), ("linkedin.com", "@outlook.com"),
         ("linkedin.com", "@hotmail.com"),
         ("indeed.com", "@gmail.com"), ("indeed.com", "@rediffmail.com"),
         ("indeed.com", "@yahoo.com"), ("indeed.com", "@outlook.com"),
         ("indeed.com", "@hotmail.com"),
         ("github.com", "@gmail.com"), ("github.com", "@rediffmail.com"),
         ("github.com", "@yahoo.com"), ("github.com", "@outlook.com"),
         ("github.com", "@hotmail.com")] ∧
      ∀ q ∈ buildGoogleDorkQueries profile,
        profile.data <:+: q.query.data ∧ q.emailProvider.data <:+: q.query.data := by
  refine ⟨rfl, rfl, ?_⟩
  intro q hq
  unfold buildGoogleDorkQueries at hq
  rcases List.mem_flatMap.mp hq with ⟨site, _, hq⟩
  rcases List.mem_map.mp hq with ⟨ep, _, rfl⟩
  exact ⟨(queryText_sub site ep profile).1, (queryText_sub site ep profile).2⟩

/-- Witness for C8 at `profile = "designer"` and the first generated query. -/
theorem buildGoogleDorkQueries_spec_witness :
    "designer".data <:+: "site:linkedin.com \"@gmail.com\" \"designer\"".data ∧
      "@gmail.com".data <:+: "site:linkedin.com \"@gmail.com\" \"designer\"".data :=
  (buildGoogleDorkQueries_spec "designer").2.2
    { query := "site:linkedin.com \"@gmail.com\" \"designer\"", site := "linkedin.com",
      emailProvider := "@gmail.com", profile := "designer" } (by decide)

theorem adjustConf_bounds (name : String) (base : ℚ)
    (h : base = mkRat 9 10 ∨ base = mkRat 17 20 ∨ base = mkRat 1 2 ∨
         base = mkRat 7 10 ∨ base = mkRat 3 5) :
    0 ≤ adjustConf base name ∧ adjustConf base name ≤ 1 := by
  unfold adjustConf
  cases hl : isLikelyRealName name <;>
    rcases h with rfl | rfl | rfl | rfl | rfl <;> simp only [hl] <;> decide

theorem splitChar_no_sep {sep : Char} {l : List Char} (h : ∀ c ∈ l, ¬c = sep) :
    splitChar sep l = [l] := by
  induction l with
  | nil => rfl
  | cons c l ih =>
    unfold splitChar
    rw [if_neg (h c (by simp)), ih (fun x hx => h x (by simp [hx]))]

theorem splitChar_append_sep {sep : Char} {l1 l2 : List Char} (h : ∀ c ∈ l1, ¬c = sep) :
    splitChar sep (l1 ++ sep :: l2) = l1 :: splitChar sep l2 := by
  induction l1 with
  | nil => simp [splitChar]
  | cons c l1 ih =>
    simp only [List.cons_append]
    conv_lhs => rw [splitChar]
    rw [if_neg (h c (by simp)), ih (fun x hx => h x (by simp [hx]))]

theorem lowerChar_space : lowerChar ' ' = ' ' := by decide

/-- If the first space-separated token of a (lowercased) name is one of the
common first names, `isLikelyRealName` returns `true` via its first test. -/
theorem isLikelyRealName_firstCommon (x y : List Char)
    (hx : ∀ c ∈ lowerList x, ¬c = ' ')
    (hmem : commonFirstNames.contains (String.mk (lowerList x)) = true) :
    isLikelyRealName ⟨x ++ ' ' :: y⟩ = true := by
  have h1 : lowerList (x ++ ' ' :: y) = lowerList x ++ ' ' :: lowerList y := by
    simp [lowerList, lowerChar_space]
  unfold isLikelyRealName
  dsimp only
  rw [h1, splitChar_append_sep hx]
  dsimp only
  rw [hmem, if_pos rfl]

/-- When the `firstname.lastname` pattern matches and the resulting name
passes `isLikelyRealName`, the confidence is `min(0.9 + 0.1, 1) = 1`. -/
theorem inferName_p1_conf_one (email : String) (a b : List Char)
    (hp : p1Match (lowerList email.data) = some (a, b))
    (hl : isLikelyRealName (formatFullName a b) = true) :
    inferName email =
      { name := formatFullName a b, confidence := 1, method := "pattern-matching" } := by
  unfold inferName
  dsimp only
  rw [hp]
  dsimp only
  unfold adjustConf
  rw [hl]
  simp only [Inference.mk.injEq, true_and, and_true]
  decide

theorem inferName_confidence_bounds (email : String) :
    0 ≤ (inferName email).confidence ∧ (inferName email).confidence ≤ 1 := by
  unfold inferName
  dsimp only
  split
  · dsimp only; exact adjustConf_bounds _ _ (Or.inl rfl)
  · split
    · dsimp only; exact adjustConf_bounds _ _ (Or.inr (Or.inl rfl))
    · split
      · dsimp only; exact adjustConf_bounds _ _ (Or.inr (Or.inr (Or.inl rfl)))
      · split
        · dsimp only; exact adjustConf_bounds _ _ (Or.inr (Or.inr (Or.inr (Or.inl rfl))))
        · split
          · dsimp only; exact adjustConf_bounds _ _ (Or.inr (Or.inr (Or.inr (Or.inr rfl))))
          · dsimp only; decide

/-- **C9.** For every email, `inferName` returns a confidence in `[0, 1]`;
and whenever the lowercased local part matches the `firstname.lastname`
pattern with a first name from the common-first-names set, the result is
the title-cased full name with method `"pattern-matching"` and confidence
`min(0.90 + 0.10, 1) = 1 ≥ 0.80` (the real-name bonus applies). -/
theorem inferName_spec :
    (∀ email : String,
       0 ≤ (inferName email).confidence ∧ (inferName email).confidence ≤ 1) ∧
    (∀ (email : String) (a b : List Char),
       p1Match (lowerList email.data) = some (a, b) →
       String.mk a ∈ commonFirstNames →
       inferName email =
         { name := formatFullName a b, confidence := 1, method := "pattern-matching" }) := by
  refine ⟨inferName_confidence_bounds, ?_⟩
  intro email a b hp hmem
  refine inferName_p1_conf_one email a b hp ?_
  have hform : formatFullName a b = ⟨capitalize a ++ ' ' :: capitalize b⟩ := by
    unfold formatFullName
    rw [List.append_assoc]
    rfl
  rw [hform]
  have hmem' : a ∈ commonFirstNames.map String.data :=
    List.mem_map.mpr ⟨⟨a⟩, hmem, rfl⟩
  simp only [commonFirstNames, List.map_cons, List.map_nil, List.mem_cons,
    List.not_mem_nil, or_false] at hmem'
  rcases hmem' with h|h|h|h|h|h|h|h|h|h|h|h|h|h|h|h|h|h|h|h|h|h|h|h|h|h|h|h|h|h <;>
    subst h <;>
    exact isLikelyRealName_firstCommon _ _ (by decide) (by decide)

/-- Witness for C9 at `"john.doe@company.com"`: direct application of the
theorem with both hypotheses discharged by `decide`. -/
theorem inferName_spec_witness :
    inferName "john.doe@company.com" =
      { name := "John Doe", confidence := 1, method := "pattern-matching" } := by
  have h := inferName_spec.2 "john.doe@company.com" "john".data "doe".data (by decide) (by decide)
  rw [h]
  decide

end EmailScraper
